import Mathlib

/-!
Shallow embedding of `pkg/driver/device_manager_redis.go` from the adam
repository: the Redis-backed device manager (trust cache, onboarding
authorization, device registration/removal, per-device config store and
telemetry streams).

Modelling conventions:
- Go byte strings (certificate raw DER bytes, serials, UUID strings,
  stream payloads) are Lean `String`s.
- Go maps are association lists (`List (String × α)`) with first-match
  lookup and replace-or-append insertion; Go map iteration is modelled by
  list order.
- An `x509.Certificate` pointer is `Option Cert`; dereferencing a nil
  pointer is the `GoResult.panicked` outcome.
- A value stored as PEM text is a `PemValue`: `goodCert c` (a PEM block
  holding a valid DER certificate), `badDer` (a PEM block whose contents
  `x509.ParseCertificate` rejects), `noPem` (bytes in which `pem.Decode`
  finds no block at all and returns a nil block pointer).
- Redis is the `DB` structure (one field per hash, plus streams); transient
  Redis errors are injected through the `Faults` structure.  Time is an
  integer number of seconds.
- `uuid.FromString` is modelled as a validator of the canonical lower-case
  dashed form that `uuid.UUID.String()` produces (the library's extra
  lenient input formats are never produced by this program's own keys).
-/

namespace Adam

/-- An X.509 certificate: `raw` is its raw DER byte identity, `cn` its
Subject Common Name. -/
structure Cert where
  raw : String
  cn : String
deriving DecidableEq, Repr

/-- The decode-relevant shape of a PEM-stored certificate record. -/
inductive PemValue
  | goodCert (c : Cert)
  | badDer
  | noPem
deriving DecidableEq, Repr

/-- `deviceStorage`: the cached per-device record (onboarding certificate
pointer and serial). -/
structure DeviceStorage where
  onboard : Option Cert := none
  serial : String := ""
deriving DecidableEq, Repr

/-- The cache-relevant state of `DeviceManagerRedis`. -/
structure DM where
  cacheTimeout : Int
  lastUpdate : Int
  onboardCerts : List (String × List String)
  deviceCerts : List (String × String)
  devices : List (String × DeviceStorage)
deriving DecidableEq, Repr

/-- A device configuration document (`config.EdgeDevConfig`): the embedded
UUID field (`m.Id.Uuid`, `none` when `m.Id` is nil) and the rest of the
document. -/
structure Config where
  id : Option String
  body : String
deriving DecidableEq, Repr

/-- The Redis database contents: one field per hash used by the driver,
plus the streams.  `onboardSerialsH` values are `none` when the stored
bytes do not msgpack-decode as a string list; `deviceConfigsH` values are
`none` when the stored bytes do not msgpack-decode as a config. -/
structure DB where
  onboardCertsH : List (String × PemValue) := []
  onboardSerialsH : List (String × Option (List String)) := []
  deviceCertsH : List (String × PemValue) := []
  deviceOnboardCertsH : List (String × PemValue) := []
  deviceSerialsH : List (String × String) := []
  deviceConfigsH : List (String × Option Config) := []
  streams : List (String × List String) := []
deriving DecidableEq, Repr

/-- Injected transient Redis failures, one flag per distinct client call
site (HGetAll scans, per-key HGets by key, and the write paths). -/
structure Faults where
  failOnboardCertsAll : Bool := false
  failOnboardSerialsGet : List String := []
  failDeviceCertsAll : Bool := false
  failDeviceOnboardAll : Bool := false
  failDeviceSerialsAll : Bool := false
  failDeviceSerialGet : List String := []
  failConfigGet : List String := []
  failWriteCert : Bool := false
  failSerialSet : Bool := false
  failConfigSet : Bool := false
  failXAdd : Bool := false
deriving DecidableEq, Repr

/-- The error kinds of §7 of the design, as realised by the driver's
returned errors. -/
inductive ErrKind
  | invalidInput
  | storeErr
  | decodeErr
  | unknownOnboardCert
  | invalidSerial
  | usedSerial
  | alreadyRegistered
  | unregisteredDevice
  | mismatchedIdentity
deriving DecidableEq, Repr

/-- Outcome of a Go call: normal result, returned error, or runtime panic
(nil-pointer dereference). -/
inductive GoResult (α : Type)
  | panicked
  | err (e : ErrKind)
  | ok (a : α)
deriving DecidableEq, Repr

/-! ### Association lists (Go maps / Redis hashes) -/

/-- First-match lookup in an association list. -/
def alookup {α : Type} : List (String × α) → String → Option α
  | [], _ => none
  | (k, v) :: rest, key => if k = key then some v else alookup rest key

/-- Replace the first binding of `key`, or append a new one (Go map
assignment). -/
def ainsert {α : Type} : List (String × α) → String → α → List (String × α)
  | [], key, v => [(key, v)]
  | (k, w) :: rest, key, v =>
    if k = key then (key, v) :: rest else (k, w) :: ainsert rest key v

/-- Drop every binding of `key` (Redis `HDEL` / `DEL`; hashes have unique
keys, so this is the single-field delete). -/
def aremove {α : Type} (l : List (String × α)) (key : String) : List (String × α) :=
  l.filter (fun p => p.1 ≠ key)

/-! ### UUID parsing

`uuid.FromString` modelled as a validator of the canonical form
`xxxxxxxx-xxxx-xxxx-xxxx-xxxxxxxxxxxx` with lower-case hex digits, which
is exactly what `uuid.UUID.String()` emits for every key this program
writes. -/

def isLowerHexDigit (c : Char) : Bool :=
  (('0' ≤ c) && (c ≤ '9')) || (('a' ≤ c) && (c ≤ 'f'))

def isCanonicalUUID (s : String) : Bool :=
  s.length == 36 &&
    (s.toList.enum.all fun ic =>
      if ic.1 == 8 || ic.1 == 13 || ic.1 == 18 || ic.1 == 23 then ic.2 == '-'
      else isLowerHexDigit ic.2)

def uuidFromString (s : String) : Option String :=
  if isCanonicalUUID s then some s else none

/-! ### The refresh pipeline (`refreshCache`)

The Go method loads, in order: the onboarding certificates with their
serial sets, the device certificates, the device onboarding certificates,
and the device serials.  Each phase that completes immediately replaces
the corresponding cache map on the manager (`d.onboardCerts = ...` after
phase one, `d.deviceCerts = ...` after phase two, `d.devices` and
`d.lastUpdate` only after all phases). -/

/-- Phase 1 body: for each `(cn, cert)` record, decode the PEM
(`pem.Decode` then `x509.ParseCertificate`; a missing PEM block means the
nil block pointer is dereferenced), fetch and decode its serial list, and
record identity → serial set.  A CN with no serials record makes the HGet
return an error (`redis.Nil`). -/
def onboardScanGo (f : Faults) (db : DB) (acc : List (String × List String)) :
    List (String × PemValue) → GoResult (List (String × List String))
  | [] => .ok acc
  | (cn, pv) :: rest =>
    match pv with
    | .noPem => .panicked
    | .badDer => .err .decodeErr
    | .goodCert c =>
      if cn ∈ f.failOnboardSerialsGet then .err .storeErr
      else
        match alookup db.onboardSerialsH cn with
        | none => .err .storeErr
        | some none => .err .decodeErr
        | some (some serials) => onboardScanGo f db (ainsert acc c.raw serials) rest

def onboardScan (f : Faults) (db : DB) : GoResult (List (String × List String)) :=
  if f.failOnboardCertsAll then .err .storeErr
  else onboardScanGo f db [] db.onboardCertsH

/-- Phase 2 body: for each `(key, cert)` device-certificate record, parse
the key as a UUID, decode the PEM, and extend both the identity → UUID map
and the devices map (seeded with an empty `deviceStorage`). -/
def deviceCertScanGo (acc : List (String × String) × List (String × DeviceStorage)) :
    List (String × PemValue) → GoResult (List (String × String) × List (String × DeviceStorage))
  | [] => .ok acc
  | (k, pv) :: rest =>
    match uuidFromString k with
    | none => .err .decodeErr
    | some u =>
      match pv with
      | .noPem => .panicked
      | .badDer => .err .decodeErr
      | .goodCert c =>
        deviceCertScanGo (ainsert acc.1 c.raw u, ainsert acc.2 u {}) rest

def deviceCertScan (f : Faults) (db : DB) :
    GoResult (List (String × String) × List (String × DeviceStorage)) :=
  if f.failDeviceCertsAll then .err .storeErr
  else deviceCertScanGo ([], []) db.deviceCertsH

/-- Phase 3 body: merge each device-onboarding-certificate record into the
per-UUID device record (creating it if absent). -/
def deviceOnboardScanGo (devs : List (String × DeviceStorage)) :
    List (String × PemValue) → GoResult (List (String × DeviceStorage))
  | [] => .ok devs
  | (k, pv) :: rest =>
    match uuidFromString k with
    | none => .err .decodeErr
    | some u =>
      match pv with
      | .noPem => .panicked
      | .badDer => .err .decodeErr
      | .goodCert c =>
        deviceOnboardScanGo
          (ainsert devs u { (alookup devs u).getD {} with onboard := some c }) rest

def deviceOnboardScan (f : Faults) (db : DB) (devs : List (String × DeviceStorage)) :
    GoResult (List (String × DeviceStorage)) :=
  if f.failDeviceOnboardAll then .err .storeErr
  else deviceOnboardScanGo devs db.deviceOnboardCertsH

/-- Phase 4 body: merge each device-serial record into the per-UUID device
record (creating it if absent). -/
def deviceSerialScanGo (devs : List (String × DeviceStorage)) :
    List (String × String) → GoResult (List (String × DeviceStorage))
  | [] => .ok devs
  | (k, s) :: rest =>
    match uuidFromString k with
    | none => .err .decodeErr
    | some u =>
      deviceSerialScanGo (ainsert devs u { (alookup devs u).getD {} with serial := s }) rest

def deviceSerialScan (f : Faults) (db : DB) (devs : List (String × DeviceStorage)) :
    GoResult (List (String × DeviceStorage)) :=
  if f.failDeviceSerialsAll then .err .storeErr
  else deviceSerialScanGo devs db.deviceSerialsH

/-- `refreshCache`: a no-op while the TTL has not elapsed; otherwise run
the four phases, assigning `onboardCerts` after phase 1, `deviceCerts`
after phase 2, and `devices` plus `lastUpdate` only on full success. -/
def refreshCache (now : Int) (f : Faults) (db : DB) (d : DM) : DM × GoResult Unit :=
  if now - d.lastUpdate < d.cacheTimeout then (d, .ok ())
  else
    match onboardScan f db with
    | .panicked => (d, .panicked)
    | .err e => (d, .err e)
    | .ok oc =>
      let d1 := { d with onboardCerts := oc }
      match deviceCertScan f db with
      | .panicked => (d1, .panicked)
      | .err e => (d1, .err e)
      | .ok dcdevs =>
        let d2 := { d1 with deviceCerts := dcdevs.1 }
        match deviceOnboardScan f db dcdevs.2 with
        | .panicked => (d2, .panicked)
        | .err e => (d2, .err e)
        | .ok devs1 =>
          match deviceSerialScan f db devs1 with
          | .panicked => (d2, .panicked)
          | .err e => (d2, .err e)
          | .ok devs2 => ({ d2 with devices := devs2, lastUpdate := now }, .ok ())

/-! ### Onboarding authorization -/

/-- `checkValidOnboardSerial`: the serial must be in the certificate's
cached serial set, or the set must contain the wildcard. -/
def checkValidOnboardSerial (d : DM) (cert : Cert) (serial : String) : GoResult Unit :=
  match alookup d.onboardCerts cert.raw with
  | some set_ =>
    if set_.contains serial then .ok ()
    else if set_.contains "*" then .ok ()
    else .err .invalidSerial
  | none => .err .unknownOnboardCert

/-- The match test of the reuse scan, for a device record whose onboarding
certificate pointer is non-nil. -/
def devMatches (certRaw serial : String) (p : String × DeviceStorage) : Bool :=
  match p.2.onboard with
  | some oc => oc.raw == certRaw && serial == p.2.serial
  | none => false

/-- The reuse-scan loop of `getOnboardSerialDevice`: for each cached
device it evaluates `string(dev.onboard.Raw)` — a nil-pointer dereference
when `dev.onboard` is nil — and returns the first device whose onboarding
identity and stored serial match. -/
def onboardSerialScanGo (certRaw serial : String) :
    List (String × DeviceStorage) → GoResult (Option String)
  | [] => .ok none
  | (uid, dev) :: rest =>
    match dev.onboard with
    | none => .panicked
    | some oc =>
      if oc.raw == certRaw && serial == dev.serial then .ok (some uid)
      else onboardSerialScanGo certRaw serial rest

def getOnboardSerialDevice (d : DM) (cert : Cert) (serial : String) : GoResult (Option String) :=
  onboardSerialScanGo cert.raw serial d.devices

/-- Convenience Bool: the serial-validity check of `OnboardCheck` passes. -/
def onboardSerialOk (d : DM) (C : Cert) (S : String) : Bool :=
  match alookup d.onboardCerts C.raw with
  | some set_ => set_.contains S || set_.contains "*"
  | none => false

/-- `OnboardCheck`: reject a nil certificate, refresh the cache, check
serial validity, then the reuse scan. -/
def OnboardCheck (now : Int) (f : Faults) (db : DB) (d : DM)
    (cert? : Option Cert) (serial : String) : DM × GoResult Unit :=
  match cert? with
  | none => (d, .err .invalidInput)
  | some cert =>
    match refreshCache now f db d with
    | (d1, .panicked) => (d1, .panicked)
    | (d1, .err e) => (d1, .err e)
    | (d1, .ok _) =>
      match checkValidOnboardSerial d1 cert serial with
      | .panicked => (d1, .panicked)
      | .err e => (d1, .err e)
      | .ok _ =>
        match getOnboardSerialDevice d1 cert serial with
        | .panicked => (d1, .panicked)
        | .err e => (d1, .err e)
        | .ok (some _) => (d1, .err .usedSerial)
        | .ok none => (d1, .ok ())

/-! ### Device registry -/

/-- `DeviceCheckCert`: refresh, then exact raw-byte identity lookup;
absence is the `none` sentinel, not an error. -/
def DeviceCheckCert (now : Int) (f : Faults) (db : DB) (d : DM)
    (cert? : Option Cert) : DM × GoResult (Option String) :=
  match cert? with
  | none => (d, .err .invalidInput)
  | some cert =>
    match refreshCache now f db d with
    | (d1, .panicked) => (d1, .panicked)
    | (d1, .err e) => (d1, .err e)
    | (d1, .ok _) => (d1, .ok (alookup d1.deviceCerts cert.raw))

/-- Append an entry to a stream, creating the stream if needed (`XADD`;
the approximate `MaxLenApprox` trimming is not modelled, streams only
grow here). -/
def streamAppend (streams : List (String × List String)) (name entry : String) :
    List (String × List String) :=
  match alookup streams name with
  | some l => ainsert streams name (l ++ [entry])
  | none => ainsert streams name [entry]

/-- Modelled from the spec: `createBaseConfig` lives outside these sources;
per §4.5 it mints a base configuration document whose self-referential
UUID field is set to the device's own UUID. -/
def createBaseConfig (u : String) : Config :=
  { id := some u, body := "" }

/-- `DeviceRegister`: refresh; `DeviceCheckCert` (with its own refresh and
nil check); fail if the identity is already mapped; then persist the
device certificate, the onboarding certificate if provided, the serial if
non-empty, the base config, and the three stream seed entries; finally
write the new device through into both cache maps.  The fresh random UUID
of `uuid.NewV4` is the explicit `unew` argument. -/
def DeviceRegister (now : Int) (f : Faults) (db : DB) (d : DM)
    (cert? onboard? : Option Cert) (serial : String) (unew : String) :
    DB × DM × GoResult String :=
  match refreshCache now f db d with
  | (d1, .panicked) => (db, d1, .panicked)
  | (d1, .err e) => (db, d1, .err e)
  | (d1, .ok _) =>
    match cert? with
    | none => (db, d1, .err .invalidInput)
    | some cert =>
      match refreshCache now f db d1 with
      | (d2, .panicked) => (db, d2, .panicked)
      | (d2, .err e) => (db, d2, .err e)
      | (d2, .ok _) =>
        match alookup d2.deviceCerts cert.raw with
        | some _ => (db, d2, .err .alreadyRegistered)
        | none =>
          if f.failWriteCert then (db, d2, .err .storeErr)
          else
            let db1 := { db with deviceCertsH := ainsert db.deviceCertsH unew (.goodCert cert) }
            let db2 :=
              match onboard? with
              | none => db1
              | some oc =>
                { db1 with deviceOnboardCertsH := ainsert db1.deviceOnboardCertsH unew (.goodCert oc) }
            if serial ≠ "" && f.failSerialSet then (db2, d2, .err .storeErr)
            else
              let db3 :=
                if serial = "" then db2
                else { db2 with deviceSerialsH := ainsert db2.deviceSerialsH unew serial }
              if f.failConfigSet then (db3, d2, .err .storeErr)
              else
                let db4 :=
                  { db3 with deviceConfigsH := ainsert db3.deviceConfigsH unew (some (createBaseConfig unew)) }
                if f.failXAdd then (db4, d2, .err .storeErr)
                else
                  let st1 := streamAppend db4.streams ("INFO_EVE_" ++ unew) ""
                  let st2 := streamAppend st1 ("METRICS_EVE_" ++ unew) ""
                  let st3 := streamAppend st2 ("LOGS_EVE_" ++ unew) ""
                  let db5 := { db4 with streams := st3 }
                  let d3 :=
                    { d2 with
                        deviceCerts := ainsert d2.deviceCerts cert.raw unew,
                        devices := ainsert d2.devices unew { onboard := onboard?, serial := serial } }
                  (db5, d3, .ok unew)

/-! ### Multi-key drop (`transactionDrop`) and removal -/

/-- Redis `HDEL hash key`, dispatched on the hash name: drop the field and
report the number of fields removed. -/
def hdel (db : DB) (hash key : String) : DB × Nat :=
  match hash with
  | "ONBOARD_CERTS" =>
    ({ db with onboardCertsH := aremove db.onboardCertsH key },
      if (alookup db.onboardCertsH key).isSome then 1 else 0)
  | "ONBOARD_SERIALS" =>
    ({ db with onboardSerialsH := aremove db.onboardSerialsH key },
      if (alookup db.onboardSerialsH key).isSome then 1 else 0)
  | "DEVICE_SERIALS" =>
    ({ db with deviceSerialsH := aremove db.deviceSerialsH key },
      if (alookup db.deviceSerialsH key).isSome then 1 else 0)
  | "DEVICE_ONBOARD_CERTS" =>
    ({ db with deviceOnboardCertsH := aremove db.deviceOnboardCertsH key },
      if (alookup db.deviceOnboardCertsH key).isSome then 1 else 0)
  | "DEVICE_CERTS" =>
    ({ db with deviceCertsH := aremove db.deviceCertsH key },
      if (alookup db.deviceCertsH key).isSome then 1 else 0)
  | "DEVICE_CONFIGS" =>
    ({ db with deviceConfigsH := aremove db.deviceConfigsH key },
      if (alookup db.deviceConfigsH key).isSome then 1 else 0)
  | _ => (db, 0)

/-- Redis `DEL key`: at the call sites of this file the single-element key
lists are always stream names. -/
def del (db : DB) (name : String) : DB × Nat :=
  ({ db with streams := aremove db.streams name },
    if (alookup db.streams name).isSome then 1 else 0)

/-- The loop of `transactionDrop`: each key is dropped independently; a
drop whose removed-count is not 1 (or that errors) overwrites the
accumulated result with an error, and the loop continues.  A key list that
is not of length 1 or 2 hits the `panic` branch. -/
def transactionDropGo (db : DB) (res : GoResult Unit) :
    List (List String) → DB × GoResult Unit
  | [] => (db, res)
  | [k0] :: rest =>
    transactionDropGo (del db k0).1
      (if (del db k0).2 == 1 then res else .err .storeErr) rest
  | [k0, k1] :: rest =>
    transactionDropGo (hdel db k0 k1).1
      (if (hdel db k0 k1).2 == 1 then res else .err .storeErr) rest
  | ([] : List String) :: _ => (db, .panicked)
  | (_ :: _ :: _ :: _) :: _ => (db, .panicked)

def transactionDrop (db : DB) (keys : List (List String)) : DB × GoResult Unit :=
  transactionDropGo db (.ok ()) keys

/-- `DeviceRemove`: drop the device's four hash fields and three streams,
then call the (TTL-guarded) `refreshCache`. -/
def DeviceRemove (now : Int) (f : Faults) (db : DB) (d : DM) (u : String) :
    DB × DM × GoResult Unit :=
  match transactionDrop db
      [["DEVICE_CERTS", u], ["DEVICE_CONFIGS", u], ["DEVICE_ONBOARD_CERTS", u],
        ["DEVICE_SERIALS", u], ["INFO_EVE_" ++ u], ["LOGS_EVE_" ++ u], ["METRICS_EVE_" ++ u]] with
  | (db1, .panicked) => (db1, d, .panicked)
  | (db1, .err e) => (db1, d, .err e)
  | (db1, .ok _) =>
    match refreshCache now f db1 d with
    | (d1, .panicked) => (db1, d1, .panicked)
    | (d1, .err e) => (db1, d1, .err e)
    | (d1, .ok _) => (db1, d1, .ok ())

/-- `DeviceList`: refresh, then return all cached device UUIDs. -/
def DeviceList (now : Int) (f : Faults) (db : DB) (d : DM) :
    DM × GoResult (List String) :=
  match refreshCache now f db d with
  | (d1, .panicked) => (d1, .panicked)
  | (d1, .err e) => (d1, .err e)
  | (d1, .ok _) => (d1, .ok (d1.devices.map (fun p => p.1)))

/-- Modelled from the spec: the repository's certificate codec
(`pkg/x509.ParseCert`, outside these sources) decodes a PEM-stored
certificate, returning an error — never crashing — when the bytes hold no
PEM block or invalid DER. -/
def axParseCert : PemValue → GoResult Cert
  | .goodCert c => .ok c
  | .badDer => .err .decodeErr
  | .noPem => .err .decodeErr

/-- `readCert`: HGet the field (an absent field is a `redis.Nil` error),
then decode it with the certificate codec. -/
def readCert (h : List (String × PemValue)) (key : String) : GoResult Cert :=
  match alookup h key with
  | none => .err .storeErr
  | some pv => axParseCert pv

/-- `DeviceGet`: device certificate (fails if unreadable or undecodable),
onboarding certificate (same), then the serial, whose read result is used
regardless of error — an unreadable serial yields the empty string. -/
def DeviceGet (f : Faults) (db : DB) (u? : Option String) :
    GoResult (Cert × Cert × String) :=
  match u? with
  | none => .err .invalidInput
  | some u =>
    match readCert db.deviceCertsH u with
    | .panicked => .panicked
    | .err e => .err e
    | .ok cert =>
      match readCert db.deviceOnboardCertsH u with
      | .panicked => .panicked
      | .err e => .err e
      | .ok onboard =>
        let serial :=
          if u ∈ f.failDeviceSerialGet then ""
          else (alookup db.deviceSerialsH u).getD ""
        .ok (cert, onboard, serial)

/-! ### Config store -/

/-- `GetConfig`: read the stored config; any HGet error (including a
simply absent field) triggers lazy seeding: create the base config,
persist it, and return it.  A present but undecodable record is an
error. -/
def GetConfig (f : Faults) (db : DB) (u : String) : DB × GoResult Config :=
  match (if u ∈ f.failConfigGet then none else alookup db.deviceConfigsH u) with
  | none =>
    let msg := createBaseConfig u
    if f.failConfigSet then (db, .err .storeErr)
    else ({ db with deviceConfigsH := ainsert db.deviceConfigsH u (some msg) }, .ok msg)
  | some none => (db, .err .decodeErr)
  | some (some c) => (db, .ok c)

/-- `SetConfig`: reject a nil document ("empty configuration") or one
whose embedded UUID is absent or differs from the target ("mismatched
UUID") — both before touching the store; refresh the cache and reject
UUIDs not in the devices map; otherwise overwrite the stored document
unconditionally. -/
def SetConfig (now : Int) (f : Faults) (db : DB) (d : DM) (u : String)
    (m? : Option Config) : DB × DM × GoResult Unit :=
  match m? with
  | none => (db, d, .err .mismatchedIdentity)
  | some m =>
    if m.id ≠ some u then (db, d, .err .mismatchedIdentity)
    else
      match refreshCache now f db d with
      | (d1, .panicked) => (db, d1, .panicked)
      | (d1, .err e) => (db, d1, .err e)
      | (d1, .ok _) =>
        match alookup d1.devices u with
        | none => (db, d1, .err .unregisteredDevice)
        | some _ =>
          if f.failConfigSet then (db, d1, .err .storeErr)
          else ({ db with deviceConfigsH := ainsert db.deviceConfigsH u (some m) }, d1, .ok ())

/-! ### Telemetry streams -/

/-- `logs.LogBundle`: the device UUID field `DevID` and the payload the
jsonpb marshaller serializes it to. -/
structure LogBundle where
  devID : String
  payload : String
deriving DecidableEq, Repr

/-- `info.ZInfoMsg` (UUID field `DevId`). -/
structure ZInfoMsg where
  devId : String
  payload : String
deriving DecidableEq, Repr

/-- `metrics.ZMetricMsg` (UUID field `DevID`). -/
structure ZMetricMsg where
  devID : String
  payload : String
deriving DecidableEq, Repr

/-- `writeProtobufToStream`: serialize the message (modelled by its
payload) and append it to the named stream. -/
def writeProtobufToStream (f : Faults) (db : DB) (stream body : String) :
    DB × GoResult Unit :=
  if f.failXAdd then (db, .err .storeErr)
  else ({ db with streams := streamAppend db.streams stream body }, .ok ())

/-- `WriteLogs`: reject nil, parse the embedded UUID, append to the
device's log stream.  No registration check of any kind. -/
def WriteLogs (f : Faults) (db : DB) (m? : Option LogBundle) : DB × GoResult Unit :=
  match m? with
  | none => (db, .err .invalidInput)
  | some m =>
    match uuidFromString m.devID with
    | none => (db, .err .invalidInput)
    | some u => writeProtobufToStream f db ("LOGS_EVE_" ++ u) m.payload

/-- `WriteInfo`: same shape, info stream. -/
def WriteInfo (f : Faults) (db : DB) (m? : Option ZInfoMsg) : DB × GoResult Unit :=
  match m? with
  | none => (db, .err .invalidInput)
  | some m =>
    match uuidFromString m.devId with
    | none => (db, .err .invalidInput)
    | some u => writeProtobufToStream f db ("INFO_EVE_" ++ u) m.payload

/-- `WriteMetrics`: same shape, metrics stream. -/
def WriteMetrics (f : Faults) (db : DB) (m? : Option ZMetricMsg) : DB × GoResult Unit :=
  match m? with
  | none => (db, .err .invalidInput)
  | some m =>
    match uuidFromString m.devID with
    | none => (db, .err .invalidInput)
    | some u => writeProtobufToStream f db ("METRICS_EVE_" ++ u) m.payload

/-- Modelled from the spec: `RedisStreamReader` (outside these sources) is
a sequential cursor over the entries of the named stream; we model the
reader returned by `GetLogsReader` by the sequence of entries it yields. -/
def GetLogsReader (db : DB) (u : String) : List String :=
  (alookup db.streams ("LOGS_EVE_" ++ u)).getD []

/-! ### Association-list lemmas -/

theorem alookup_ainsert_self {α : Type} (l : List (String × α)) (k : String) (v : α) :
    alookup (ainsert l k v) k = some v := by
  induction l with
  | nil => simp [ainsert, alookup]
  | cons p rest ih =>
    by_cases h : p.1 = k
    · simp [ainsert, h, alookup]
    · simpa [ainsert, alookup, h] using ih

theorem alookup_ainsert_ne {α : Type} (l : List (String × α)) {k k2 : String} (v : α)
    (h : k ≠ k2) : alookup (ainsert l k v) k2 = alookup l k2 := by
  induction l with
  | nil => simp [ainsert, alookup, h]
  | cons p rest ih =>
    by_cases hp : p.1 = k
    · simp [ainsert, hp, alookup, h]
    · by_cases hp2 : p.1 = k2
      · simp [ainsert, alookup, hp, hp2, Ne.symm h]
      · simpa [ainsert, alookup, hp, hp2] using ih

theorem mem_ainsert {α : Type} {l : List (String × α)} {k : String} {v : α}
    {p : String × α} (h : p ∈ ainsert l k v) : p ∈ l ∨ p = (k, v) := by
  induction l with
  | nil => simpa [ainsert] using h
  | cons q rest ih =>
    by_cases hq : q.1 = k
    · simp only [ainsert, if_pos hq, List.mem_cons] at h
      rcases h with h | h
      · exact Or.inr h
      · exact Or.inl (List.mem_cons_of_mem _ h)
    · simp only [ainsert, if_neg hq, List.mem_cons] at h
      rcases h with h | h
      · exact Or.inl (h ▸ List.mem_cons_self _ _)
      · rcases ih h with h2 | h2
        · exact Or.inl (List.mem_cons_of_mem _ h2)
        · exact Or.inr h2

theorem self_mem_ainsert {α : Type} (l : List (String × α)) (k : String) (v : α) :
    (k, v) ∈ ainsert l k v := by
  induction l with
  | nil => simp [ainsert]
  | cons q rest ih =>
    by_cases hq : q.1 = k
    · simp [ainsert, hq]
    · simp only [ainsert, if_neg hq, List.mem_cons]
      exact Or.inr ih

theorem alookup_eq_none_of {α : Type} {l : List (String × α)} {k : String}
    (h : ∀ p ∈ l, p.1 ≠ k) : alookup l k = none := by
  induction l with
  | nil => rfl
  | cons p rest ih =>
    have hp := h p (List.mem_cons_self _ _)
    simp only [alookup, if_neg hp]
    exact ih fun q hq => h q (List.mem_cons_of_mem _ hq)

theorem mem_aremove {α : Type} {l : List (String × α)} {k : String} {p : String × α}
    (h : p ∈ aremove l k) : p ∈ l ∧ p.1 ≠ k := by
  unfold aremove at h
  have := List.mem_filter.mp h
  refine ⟨this.1, ?_⟩
  simpa using this.2

theorem uuidFromString_eq {s t : String} (h : uuidFromString s = some t) : t = s := by
  unfold uuidFromString at h
  by_cases hc : isCanonicalUUID s
  · simp [hc] at h; exact h.symm
  · simp [hc] at h

/-! ### Reuse-scan lemmas -/

theorem scan_ne_err (certRaw serial : String) (l : List (String × DeviceStorage)) (e : ErrKind) :
    onboardSerialScanGo certRaw serial l ≠ .err e := by
  induction l with
  | nil => simp [onboardSerialScanGo]
  | cons p rest ih =>
    rcases p with ⟨uid, dev⟩
    cases ho : dev.onboard with
    | none => simp [onboardSerialScanGo, ho]
    | some oc =>
      by_cases hm : (oc.raw == certRaw && serial == dev.serial) = true
      · simp [onboardSerialScanGo, ho, hm]
      · simpa [onboardSerialScanGo, ho, hm] using ih

theorem scan_ne_panicked {certRaw serial : String} {l : List (String × DeviceStorage)}
    (hnn : ∀ p ∈ l, p.2.onboard ≠ none) :
    onboardSerialScanGo certRaw serial l ≠ .panicked := by
  induction l with
  | nil => simp [onboardSerialScanGo]
  | cons p rest ih =>
    rcases p with ⟨uid, dev⟩
    cases ho : dev.onboard with
    | none => exact absurd ho (hnn (uid, dev) (List.mem_cons_self _ _))
    | some oc =>
      by_cases hm : (oc.raw == certRaw && serial == dev.serial) = true
      · simp [onboardSerialScanGo, ho, hm]
      · simpa [onboardSerialScanGo, ho, hm] using
          ih fun q hq => hnn q (List.mem_cons_of_mem _ hq)

theorem scan_ok_none_iff {certRaw serial : String} {l : List (String × DeviceStorage)}
    (hnn : ∀ p ∈ l, p.2.onboard ≠ none) :
    onboardSerialScanGo certRaw serial l = .ok none ↔
      ∀ p ∈ l, devMatches certRaw serial p = false := by
  induction l with
  | nil => simp [onboardSerialScanGo]
  | cons p rest ih =>
    rcases p with ⟨uid, dev⟩
    cases ho : dev.onboard with
    | none => exact absurd ho (hnn (uid, dev) (List.mem_cons_self _ _))
    | some oc =>
      have ihr := ih fun q hq => hnn q (List.mem_cons_of_mem _ hq)
      by_cases hm : (oc.raw == certRaw && serial == dev.serial) = true
      · constructor
        · intro h
          simp [onboardSerialScanGo, ho, hm] at h
        · intro h
          have := h (uid, dev) (List.mem_cons_self _ _)
          simp [devMatches, ho, hm] at this
      · constructor
        · intro h
          simp only [onboardSerialScanGo, ho, if_neg hm] at h
          intro q hq
          rcases List.mem_cons.mp hq with hq | hq
          · subst hq; simp only [devMatches, ho]; simpa using hm
          · exact ihr.mp h q hq
        · intro h
          simp only [onboardSerialScanGo, ho, if_neg hm]
          exact ihr.mpr fun q hq => h q (List.mem_cons_of_mem _ hq)

theorem scan_panicked_of_nil_entry {certRaw serial : String}
    {l : List (String × DeviceStorage)}
    (hnil : ∃ p ∈ l, p.2.onboard = none)
    (hnomatch : ∀ p ∈ l, devMatches certRaw serial p = false) :
    onboardSerialScanGo certRaw serial l = .panicked := by
  induction l with
  | nil => simp at hnil
  | cons p rest ih =>
    rcases p with ⟨uid, dev⟩
    cases ho : dev.onboard with
    | none => simp [onboardSerialScanGo, ho]
    | some oc =>
      have hm : (oc.raw == certRaw && serial == dev.serial) = false := by
        have := hnomatch (uid, dev) (List.mem_cons_self _ _)
        simpa [devMatches, ho] using this
      simp only [onboardSerialScanGo, ho, hm]
      rcases hnil with ⟨q, hq, hqo⟩
      rcases List.mem_cons.mp hq with hq1 | hq1
      · rw [hq1] at hqo; simp only at hqo; rw [hqo] at ho; cases ho
      · exact ih ⟨q, hq1, hqo⟩ fun r hr => hnomatch r (List.mem_cons_of_mem _ hr)

theorem scan_some_of_match {certRaw serial : String} {l : List (String × DeviceStorage)}
    (hnn : ∀ p ∈ l, p.2.onboard ≠ none)
    (hmatch : ∃ p ∈ l, devMatches certRaw serial p = true) :
    ∃ u, onboardSerialScanGo certRaw serial l = .ok (some u) := by
  cases hres : onboardSerialScanGo certRaw serial l with
  | panicked => exact absurd hres (scan_ne_panicked hnn)
  | err e => exact absurd hres (scan_ne_err certRaw serial l e)
  | ok o =>
    cases o with
    | none =>
      rcases hmatch with ⟨p, hp, hm⟩
      have := (scan_ok_none_iff hnn).mp hres p hp
      rw [hm] at this; cases this
    | some u => exact ⟨u, rfl⟩

/-! ### Refresh no-op lemma -/

theorem refreshCache_noop (now : Int) (f : Faults) (db : DB) (d : DM)
    (hTTL : now - d.lastUpdate < d.cacheTimeout) :
    refreshCache now f db d = (d, .ok ()) := by
  simp [refreshCache, hTTL]

theorem onboardSerialOk_iff {d : DM} {C : Cert} {S : String} {set_ : List String}
    (hoc : alookup d.onboardCerts C.raw = some set_) :
    onboardSerialOk d C S = true ↔ (S ∈ set_ ∨ "*" ∈ set_) := by
  simp [onboardSerialOk, hoc]

theorem checkValid_ok_of_serialOk {d : DM} {C : Cert} {S : String}
    (h : onboardSerialOk d C S = true) :
    checkValidOnboardSerial d C S = .ok () := by
  unfold onboardSerialOk at h
  unfold checkValidOnboardSerial
  cases hoc : alookup d.onboardCerts C.raw with
  | none => rw [hoc] at h; cases h
  | some set_ =>
    rw [hoc] at h
    have h2 : S ∈ set_ ∨ "*" ∈ set_ := by simpa using h
    by_cases hS : S ∈ set_
    · simp [hS]
    · rcases h2 with h2 | h2
      · exact absurd h2 hS
      · simp [hS, h2]

theorem checkValid_unknown {d : DM} {C : Cert} (S : String)
    (hoc : alookup d.onboardCerts C.raw = none) :
    checkValidOnboardSerial d C S = .err .unknownOnboardCert := by
  simp [checkValidOnboardSerial, hoc]

theorem checkValid_invalid {d : DM} {C : Cert} {S : String} {set_ : List String}
    (hoc : alookup d.onboardCerts C.raw = some set_)
    (hS : S ∉ set_) (hW : "*" ∉ set_) :
    checkValidOnboardSerial d C S = .err .invalidSerial := by
  simp [checkValidOnboardSerial, hoc, hS, hW]

/-- Evaluation of `OnboardCheck` on a non-nil certificate when the TTL has
not elapsed: the refresh is a no-op and the result is the composition of
the validity check and the reuse scan on the current cache. -/
theorem OnboardCheck_eval (now : Int) (f : Faults) (db : DB) (d : DM)
    (C : Cert) (S : String)
    (hTTL : now - d.lastUpdate < d.cacheTimeout) :
    OnboardCheck now f db d (some C) S =
      (d,
        match checkValidOnboardSerial d C S with
        | .panicked => .panicked
        | .err e => .err e
        | .ok _ =>
          match getOnboardSerialDevice d C S with
          | .panicked => .panicked
          | .err e => .err e
          | .ok (some _) => .err .usedSerial
          | .ok none => .ok ()) := by
  have hrf := refreshCache_noop now f db d hTTL
  simp only [OnboardCheck, hrf]
  cases checkValidOnboardSerial d C S with
  | panicked => rfl
  | err e => rfl
  | ok a =>
    cases getOnboardSerialDevice d C S with
    | panicked => rfl
    | err e => rfl
    | ok o => cases o <;> rfl

/-! ### Claim C1 -/

/-- Sample state for C1: a known onboarding certificate accepting serial
S1, one cached device whose onboarding-certificate pointer is nil. -/
def c1BadDM : DM :=
  { cacheTimeout := 1, lastUpdate := 0,
    onboardCerts := [("rawC", ["S1", "S2"])], deviceCerts := [],
    devices := [("u1", { onboard := none, serial := "x" })] }

/-- C1 (counterexample): in a cache state holding a device record with a
nil onboarding certificate, all three success conditions of the claim hold
for certificate identity rawC and serial S1 — the identity is a key of
onboardCerts, S1 is in its serial set, and no cached device has both this
onboarding identity and serial S1 — yet OnboardCheck does not succeed: the
reuse scan dereferences the nil pointer and the call panics. -/
theorem c1_counterexample :
    onboardSerialOk c1BadDM { raw := "rawC", cn := "cn" } "S1" = true ∧
    (∀ p ∈ c1BadDM.devices, devMatches "rawC" "S1" p = false) ∧
    OnboardCheck 0 {} {} c1BadDM (some { raw := "rawC", cn := "cn" }) "S1" =
      (c1BadDM, .panicked) := by
  refine ⟨by decide, by decide, ?_⟩
  decide

/-- C1 (amended): given the current cache state (the TTL has not elapsed,
so the refresh is a no-op) and provided every cached device record carries
a non-nil onboarding certificate, OnboardCheck(C, S) succeeds iff C's
raw-byte identity is a key of onboardCerts with S in its serial set or the
set holding the wildcard, and no cached device has both onboarding-cert
identity C.raw and stored serial S; it fails with the
unknown-onboarding-certificate error when the identity is absent, with the
invalid-serial error when the identity is present but S is not accepted,
and with the serial-already-used error when a matching device exists. -/
theorem c1_onboard_check_correct (now : Int) (f : Faults) (db : DB) (d : DM)
    (C : Cert) (S : String)
    (hTTL : now - d.lastUpdate < d.cacheTimeout)
    (hnn : ∀ p ∈ d.devices, p.2.onboard ≠ none) :
    (OnboardCheck now f db d (some C) S = (d, .ok ()) ↔
      (onboardSerialOk d C S = true ∧
        ∀ p ∈ d.devices, devMatches C.raw S p = false)) ∧
    (alookup d.onboardCerts C.raw = none →
      OnboardCheck now f db d (some C) S = (d, .err .unknownOnboardCert)) ∧
    (∀ set_, alookup d.onboardCerts C.raw = some set_ →
      set_.contains S = false → set_.contains "*" = false →
      OnboardCheck now f db d (some C) S = (d, .err .invalidSerial)) ∧
    (onboardSerialOk d C S = true →
      (∃ p ∈ d.devices, devMatches C.raw S p = true) →
      OnboardCheck now f db d (some C) S = (d, .err .usedSerial)) := by
  have hev := OnboardCheck_eval now f db d C S hTTL
  refine ⟨?_, ?_, ?_, ?_⟩
  · cases hoc : alookup d.onboardCerts C.raw with
    | none =>
      constructor
      · intro h
        rw [hev, checkValid_unknown S hoc] at h
        simp at h
      · rintro ⟨hok, -⟩
        simp [onboardSerialOk, hoc] at hok
    | some set_ =>
      by_cases hv : onboardSerialOk d C S = true
      · have hcv := checkValid_ok_of_serialOk hv
        cases hsc : onboardSerialScanGo C.raw S d.devices with
        | panicked => exact absurd hsc (scan_ne_panicked hnn)
        | err e => exact absurd hsc (scan_ne_err _ _ _ _)
        | ok o =>
          cases o with
          | none =>
            have hall := (scan_ok_none_iff hnn).mp hsc
            constructor
            · intro _
              exact ⟨hv, hall⟩
            · intro _
              rw [hev, hcv]
              simp [getOnboardSerialDevice, hsc]
          | some u =>
            constructor
            · intro h
              rw [hev, hcv] at h
              simp [getOnboardSerialDevice, hsc] at h
            · rintro ⟨-, hnm⟩
              have hnone := (scan_ok_none_iff hnn).mpr hnm
              rw [hsc] at hnone
              simp at hnone
      · have hv2 : ¬(S ∈ set_ ∨ "*" ∈ set_) := fun h2 =>
          hv ((onboardSerialOk_iff hoc).mpr h2)
        have hcv := checkValid_invalid hoc (fun h2 => hv2 (Or.inl h2))
          (fun h2 => hv2 (Or.inr h2))
        constructor
        · intro h
          rw [hev, hcv] at h
          simp at h
        · rintro ⟨hok, -⟩
          exact absurd hok hv
  · intro hoc
    rw [hev, checkValid_unknown S hoc]
  · intro set_ hoc hS hW
    rw [hev, checkValid_invalid hoc (by simpa using hS) (by simpa using hW)]
  · intro hok hmatch
    obtain ⟨u, hsc⟩ := scan_some_of_match hnn hmatch
    rw [hev, checkValid_ok_of_serialOk hok]
    simp [getOnboardSerialDevice, hsc]

/-- C1 (witness): a concrete cache where serial S1 is accepted and free,
while serial S2 is accepted but already used by the cached device. -/
def c1GoodDM : DM :=
  { cacheTimeout := 10, lastUpdate := 0,
    onboardCerts := [("rawC", ["S1", "S2"])],
    deviceCerts := [("rawD", "11111111-1111-4111-8111-111111111111")],
    devices := [("11111111-1111-4111-8111-111111111111",
      { onboard := some { raw := "rawC", cn := "cn" }, serial := "S2" })] }

theorem c1_witness :
    OnboardCheck 0 {} {} c1GoodDM (some { raw := "rawC", cn := "cn" }) "S1" =
      (c1GoodDM, .ok ()) ∧
    OnboardCheck 0 {} {} c1GoodDM (some { raw := "rawC", cn := "cn" }) "S2" =
      (c1GoodDM, .err .usedSerial) := by
  constructor
  · exact (c1_onboard_check_correct 0 {} {} c1GoodDM { raw := "rawC", cn := "cn" } "S1"
      (by decide) (by decide)).1.mpr ⟨by decide, by decide⟩
  · exact (c1_onboard_check_correct 0 {} {} c1GoodDM { raw := "rawC", cn := "cn" } "S2"
      (by decide) (by decide)).2.2.2 (by decide) (by decide)

/-! ### Claim C10 -/

theorem deviceCertScanGo_default {k : String}
    {l : List (String × PemValue)}
    {acc out : List (String × String) × List (String × DeviceStorage)}
    (hmem : alookup acc.2 k = some {} ∨ ∃ pv, (k, pv) ∈ l)
    (h : deviceCertScanGo acc l = .ok out) :
    alookup out.2 k = some {} := by
  induction l generalizing acc with
  | nil =>
    simp only [deviceCertScanGo, GoResult.ok.injEq] at h
    rcases hmem with hm | ⟨pv, hpv⟩
    · exact h ▸ hm
    · simp at hpv
  | cons p rest ih =>
    rcases p with ⟨k1, pv1⟩
    cases hu : uuidFromString k1 with
    | none => simp [deviceCertScanGo, hu] at h
    | some u1 =>
      have hu1 : u1 = k1 := uuidFromString_eq hu
      cases pv1 with
      | noPem => simp [deviceCertScanGo, hu] at h
      | badDer => simp [deviceCertScanGo, hu] at h
      | goodCert c1 =>
        simp only [deviceCertScanGo, hu] at h
        refine ih ?_ h
        by_cases hk : u1 = k
        · left
          simpa [hk] using alookup_ainsert_self acc.2 k ({} : DeviceStorage)
        · rcases hmem with hm | ⟨pv, hpv⟩
          · left
            rw [alookup_ainsert_ne _ _ hk]
            exact hm
          · rcases List.mem_cons.mp hpv with he | he
            · exfalso
              have : k = k1 := congrArg Prod.fst he
              exact hk (hu1.trans this.symm)
            · exact Or.inr ⟨pv, he⟩

theorem deviceOnboardScanGo_preserve {k : String}
    {l : List (String × PemValue)} {devs out : List (String × DeviceStorage)}
    (hk : ∀ p ∈ l, p.1 ≠ k)
    (h : deviceOnboardScanGo devs l = .ok out) :
    alookup out k = alookup devs k := by
  induction l generalizing devs with
  | nil =>
    simp only [deviceOnboardScanGo, GoResult.ok.injEq] at h
    rw [h]
  | cons p rest ih =>
    rcases p with ⟨k1, pv1⟩
    cases hu : uuidFromString k1 with
    | none => simp [deviceOnboardScanGo, hu] at h
    | some u1 =>
      have hne : u1 ≠ k := by
        rw [uuidFromString_eq hu]
        exact hk (k1, pv1) (List.mem_cons_self _ _)
      cases pv1 with
      | noPem => simp [deviceOnboardScanGo, hu] at h
      | badDer => simp [deviceOnboardScanGo, hu] at h
      | goodCert c1 =>
        simp only [deviceOnboardScanGo, hu] at h
        rw [ih (fun q hq => hk q (List.mem_cons_of_mem _ hq)) h,
          alookup_ainsert_ne _ _ hne]

theorem deviceSerialScanGo_onboard_none {k : String}
    {l : List (String × String)} {devs out : List (String × DeviceStorage)}
    (hinv : ∀ ds, alookup devs k = some ds → ds.onboard = none)
    (h : deviceSerialScanGo devs l = .ok out) :
    ∀ ds, alookup out k = some ds → ds.onboard = none := by
  induction l generalizing devs with
  | nil =>
    simp only [deviceSerialScanGo, GoResult.ok.injEq] at h
    exact h ▸ hinv
  | cons p rest ih =>
    rcases p with ⟨k1, s1⟩
    cases hu : uuidFromString k1 with
    | none => simp [deviceSerialScanGo, hu] at h
    | some u1 =>
      simp only [deviceSerialScanGo, hu] at h
      refine ih ?_ h
      intro ds hds
      by_cases hk : u1 = k
      · rw [hk, alookup_ainsert_self] at hds
        injection hds with h2
        subst h2
        cases hlk : alookup devs k with
        | none => simp [hlk]
        | some ds0 => simpa [hlk] using hinv ds0 hlk
      · rw [alookup_ainsert_ne _ _ hk] at hds
        exact hinv ds hds

theorem deviceSerialScanGo_isSome {k : String}
    {l : List (String × String)} {devs out : List (String × DeviceStorage)}
    (hs : (alookup devs k).isSome = true)
    (h : deviceSerialScanGo devs l = .ok out) :
    (alookup out k).isSome = true := by
  induction l generalizing devs with
  | nil =>
    simp only [deviceSerialScanGo, GoResult.ok.injEq] at h
    exact h ▸ hs
  | cons p rest ih =>
    rcases p with ⟨k1, s1⟩
    cases hu : uuidFromString k1 with
    | none => simp [deviceSerialScanGo, hu] at h
    | some u1 =>
      simp only [deviceSerialScanGo, hu] at h
      refine ih ?_ h
      by_cases hk : u1 = k
      · rw [hk, alookup_ainsert_self]; rfl
      · rw [alookup_ainsert_ne _ _ hk]; exact hs

/-- Destructuring a refresh that actually ran and succeeded: all four scan
phases succeeded and the new state is the full rebuild. -/
theorem refreshCache_ran_ok {now : Int} {f : Faults} {db : DB} {d d1 : DM}
    (hran : ¬(now - d.lastUpdate < d.cacheTimeout))
    (hr : refreshCache now f db d = (d1, .ok ())) :
    ∃ oc dcdevs devs1 devs2,
      onboardScan f db = .ok oc ∧
      deviceCertScan f db = .ok dcdevs ∧
      deviceOnboardScan f db dcdevs.2 = .ok devs1 ∧
      deviceSerialScan f db devs1 = .ok devs2 ∧
      d1 = { d with
              onboardCerts := oc,
              deviceCerts := dcdevs.1,
              devices := devs2,
              lastUpdate := now } := by
  unfold refreshCache at hr
  rw [if_neg hran] at hr
  split at hr
  · simp at hr
  · simp at hr
  · rename_i oc ho
    split at hr
    · simp at hr
    · simp at hr
    · rename_i dcdevs hdc
      split at hr
      · simp at hr
      · simp at hr
      · rename_i devs1 hdo
        split at hr
        · simp at hr
        · simp at hr
        · rename_i devs2 hds
          refine ⟨oc, dcdevs, devs1, devs2, ho, hdc, hdo, hds, ?_⟩
          have h1 := congrArg Prod.fst hr
          exact h1.symm

/-- C10 (counterexample): with a device cache that does contain a
nil-onboarding-certificate entry, OnboardCheck on a certificate whose
identity is not in `onboardCerts` returns the typed
unknown-onboarding-certificate error — it does not crash — refuting the
original claim's "for every input certificate and serial". -/
theorem c10_counterexample :
    (∃ p ∈ c1BadDM.devices, p.2.onboard = none) ∧
    OnboardCheck 0 {} {} c1BadDM (some { raw := "other", cn := "cn" }) "S1" =
      (c1BadDM, .err .unknownOnboardCert) := by
  constructor
  · exact ⟨("u1", { onboard := none, serial := "x" }), by decide, by decide⟩
  · decide

/-- C10 (amended): (a) for a device-certificate record keyed by a valid
UUID with no matching device-onboarding-certificate record, a successful
refresh that actually ran produces a cached device entry whose onboarding
certificate is nil; (b) whenever the devices cache contains such an entry,
OnboardCheck crashes with a nil-pointer dereference — instead of
returning a typed error — for every input certificate and serial that
passes the serial-validity check and matches no cached device (inputs
failing the validity check still get a typed error, and a matching device
encountered before the nil entry would end the scan early). -/
theorem c10_nil_onboard_panics
    (now nowB : Int) (f fB : Faults) (db dbB : DB) (d dB d1 : DM)
    (k : String) (c C : Cert) (S : String)
    (hran : ¬(now - d.lastUpdate < d.cacheTimeout))
    (hr : refreshCache now f db d = (d1, .ok ()))
    (hc : (k, PemValue.goodCert c) ∈ db.deviceCertsH)
    (hno : ∀ p ∈ db.deviceOnboardCertsH, p.1 ≠ k)
    (hTTLB : nowB - dB.lastUpdate < dB.cacheTimeout)
    (hnil : ∃ p ∈ dB.devices, p.2.onboard = none)
    (hvalid : onboardSerialOk dB C S = true)
    (hnomatch : ∀ p ∈ dB.devices, devMatches C.raw S p = false) :
    (∃ ds, alookup d1.devices k = some ds ∧ ds.onboard = none) ∧
    OnboardCheck nowB fB dbB dB (some C) S = (dB, .panicked) := by
  constructor
  · obtain ⟨oc, dcdevs, devs1, devs2, ho, hdc, hdo, hds, hd1⟩ :=
      refreshCache_ran_ok hran hr
    have hscan2 : deviceCertScanGo ([], []) db.deviceCertsH = .ok dcdevs := by
      unfold deviceCertScan at hdc
      by_cases hfc : f.failDeviceCertsAll
      · rw [if_pos hfc] at hdc; simp at hdc
      · rwa [if_neg hfc] at hdc
    have h2 : alookup dcdevs.2 k = some {} :=
      deviceCertScanGo_default (Or.inr ⟨_, hc⟩) hscan2
    have hscan3 : deviceOnboardScanGo dcdevs.2 db.deviceOnboardCertsH = .ok devs1 := by
      unfold deviceOnboardScan at hdo
      by_cases hfo : f.failDeviceOnboardAll
      · rw [if_pos hfo] at hdo; simp at hdo
      · rwa [if_neg hfo] at hdo
    have h3 : alookup devs1 k = some {} :=
      (deviceOnboardScanGo_preserve hno hscan3).trans h2
    have hscan4 : deviceSerialScanGo devs1 db.deviceSerialsH = .ok devs2 := by
      unfold deviceSerialScan at hds
      by_cases hfs : f.failDeviceSerialsAll
      · rw [if_pos hfs] at hds; simp at hds
      · rwa [if_neg hfs] at hds
    have h4 := deviceSerialScanGo_onboard_none
      (fun ds hds2 => by
        rw [h3] at hds2
        injection hds2 with h6
        rw [← h6]) hscan4
    have h5 : (alookup devs2 k).isSome = true :=
      deviceSerialScanGo_isSome (by rw [h3]; rfl) hscan4
    have hdev : d1.devices = devs2 := by rw [hd1]
    rw [hdev]
    cases hlk : alookup devs2 k with
    | none => rw [hlk] at h5; simp at h5
    | some ds => exact ⟨ds, rfl, h4 ds hlk⟩
  · have hsc := scan_panicked_of_nil_entry hnil hnomatch
    rw [OnboardCheck_eval nowB fB dbB dB C S hTTLB,
      checkValid_ok_of_serialOk hvalid]
    simp [getOnboardSerialDevice, hsc]

/-- C10 (witness): a store with one device-certificate record and no
device-onboarding-certificate record yields a cached nil-onboard entry on
refresh, and OnboardCheck on the resulting kind of cache panics for a
valid unused serial. -/
theorem c10_witness :
    (∃ ds,
      alookup (refreshCache 1 {}
        { deviceCertsH := [("11111111-1111-4111-8111-111111111111",
            PemValue.goodCert { raw := "rawD", cn := "dev" })] }
        { cacheTimeout := 1, lastUpdate := 0, onboardCerts := [],
          deviceCerts := [], devices := [] }).1.devices
        "11111111-1111-4111-8111-111111111111" = some ds ∧ ds.onboard = none) ∧
    OnboardCheck 0 {} {} c1BadDM (some { raw := "rawC", cn := "cn" }) "S2" =
      (c1BadDM, .panicked) := by
  have h := c10_nil_onboard_panics 1 0 {} {}
    { deviceCertsH := [("11111111-1111-4111-8111-111111111111",
        PemValue.goodCert { raw := "rawD", cn := "dev" })] }
    {}
    { cacheTimeout := 1, lastUpdate := 0, onboardCerts := [],
      deviceCerts := [], devices := [] }
    c1BadDM
    (refreshCache 1 {}
      { deviceCertsH := [("11111111-1111-4111-8111-111111111111",
          PemValue.goodCert { raw := "rawD", cn := "dev" })] }
      { cacheTimeout := 1, lastUpdate := 0, onboardCerts := [],
        deviceCerts := [], devices := [] }).1
    "11111111-1111-4111-8111-111111111111"
    { raw := "rawD", cn := "dev" } { raw := "rawC", cn := "cn" } "S2"
    (by decide) (by decide) (by decide) (by decide) (by decide)
    (⟨("u1", { onboard := none, serial := "x" }), by decide, by decide⟩)
    (by decide) (by decide)
  exact h

/-! ### Claim C2 -/

/-- C2 (counterexample): with one well-formed onboarding-certificate
record and an injected failure of the device-certificate scan, the
refresh returns an error, yet the onboardCerts cache map has been
individually replaced (it was empty before the call and holds the freshly
loaded entry after), refuting "all three cache maps are left exactly as
they were before the call". -/
theorem c2_counterexample :
    (refreshCache 0 { failDeviceCertsAll := true }
        { onboardCertsH := [("cn1", .goodCert { raw := "rawO", cn := "cn1" })],
          onboardSerialsH := [("cn1", some ["S"])] }
        { cacheTimeout := 0, lastUpdate := 0, onboardCerts := [],
          deviceCerts := [], devices := [] }).2 = .err .storeErr ∧
    (refreshCache 0 { failDeviceCertsAll := true }
        { onboardCertsH := [("cn1", .goodCert { raw := "rawO", cn := "cn1" })],
          onboardSerialsH := [("cn1", some ["S"])] }
        { cacheTimeout := 0, lastUpdate := 0, onboardCerts := [],
          deviceCerts := [], devices := [] }).1.onboardCerts =
      [("rawO", ["S"])] := by
  constructor
  · decide
  · decide

/-- C2 (amended): on every refreshCache execution that returns an error,
lastUpdate is not advanced and the devices map is unchanged (and the TTL
check had passed, so an immediately following call attempts the refresh
again rather than being a TTL no-op); however the onboardCerts and
deviceCerts maps are not always preserved: each is either unchanged or
already replaced by its phase's freshly loaded value, so a failure in a
late phase leaves a mixed snapshot. -/
theorem c2_refresh_failure_state (now : Int) (f : Faults) (db : DB) (d d1 : DM)
    (e : ErrKind) (h : refreshCache now f db d = (d1, .err e)) :
    d1.lastUpdate = d.lastUpdate ∧
    d1.cacheTimeout = d.cacheTimeout ∧
    d1.devices = d.devices ∧
    ¬(now - d.lastUpdate < d.cacheTimeout) ∧
    (d1.onboardCerts = d.onboardCerts ∨ onboardScan f db = .ok d1.onboardCerts) ∧
    (d1.deviceCerts = d.deviceCerts ∨
      ∃ devs0, deviceCertScan f db = .ok (d1.deviceCerts, devs0)) := by
  unfold refreshCache at h
  by_cases hTTL : now - d.lastUpdate < d.cacheTimeout
  · rw [if_pos hTTL] at h
    simp at h
  · rw [if_neg hTTL] at h
    split at h
    · simp at h
    · simp only [Prod.mk.injEq] at h
      obtain ⟨h1, -⟩ := h
      subst h1
      exact ⟨rfl, rfl, rfl, hTTL, Or.inl rfl, Or.inl rfl⟩
    · rename_i oc ho
      split at h
      · simp at h
      · simp only [Prod.mk.injEq] at h
        obtain ⟨h1, -⟩ := h
        subst h1
        exact ⟨rfl, rfl, rfl, hTTL, Or.inr ho, Or.inl rfl⟩
      · rename_i dcdevs hdc
        split at h
        · simp at h
        · simp only [Prod.mk.injEq] at h
          obtain ⟨h1, -⟩ := h
          subst h1
          exact ⟨rfl, rfl, rfl, hTTL, Or.inr ho, Or.inr ⟨dcdevs.2, hdc⟩⟩
        · rename_i devs1 hdo
          split at h
          · simp at h
          · simp only [Prod.mk.injEq] at h
            obtain ⟨h1, -⟩ := h
            subst h1
            exact ⟨rfl, rfl, rfl, hTTL, Or.inr ho, Or.inr ⟨dcdevs.2, hdc⟩⟩
          · simp at h

/-- C2 (witness): a concrete full cache and a serial-phase failure — the
devices map and the timestamp survive, while the two earlier maps have
been replaced by the freshly loaded (empty) ones. -/
def c2W : DM :=
  { cacheTimeout := 1, lastUpdate := 0,
    onboardCerts := [("x", ["1"])], deviceCerts := [("y", "z")],
    devices := [("w", {})] }

theorem c2_witness :
    ({ c2W with onboardCerts := [], deviceCerts := [] } : DM).devices = c2W.devices ∧
    ({ c2W with onboardCerts := [], deviceCerts := [] } : DM).lastUpdate = c2W.lastUpdate := by
  have h := c2_refresh_failure_state 5 { failDeviceSerialsAll := true } {} c2W
    { c2W with onboardCerts := [], deviceCerts := [] } .storeErr (by decide)
  exact ⟨h.2.2.1, h.1⟩

/-! ### Claim C6 -/

/-- C6: SetConfig rejects a nil document or a mismatched/absent embedded
UUID before touching the store; after a successful refresh it rejects a
UUID not in the devices map, still without touching the store; when both
checks pass it overwrites the stored document unconditionally. -/
theorem c6_set_config_correct (now : Int) (f : Faults) (db : DB) (d : DM)
    (u : String) (m? : Option Config) :
    (SetConfig now f db d u none = (db, d, .err .mismatchedIdentity)) ∧
    (∀ m, m? = some m → m.id ≠ some u →
      SetConfig now f db d u m? = (db, d, .err .mismatchedIdentity)) ∧
    (∀ m d1, m? = some m → m.id = some u →
      refreshCache now f db d = (d1, .ok ()) →
      (alookup d1.devices u = none →
        SetConfig now f db d u m? = (db, d1, .err .unregisteredDevice)) ∧
      (∀ ds, alookup d1.devices u = some ds → f.failConfigSet = false →
        SetConfig now f db d u m? =
          ({ db with deviceConfigsH := ainsert db.deviceConfigsH u (some m) },
            d1, .ok ()))) := by
  refine ⟨rfl, ?_, ?_⟩
  · rintro m rfl hne
    simp [SetConfig, hne]
  · rintro m d1 rfl hid hr
    constructor
    · intro hlk
      simp [SetConfig, hid, hr, hlk]
    · intro ds hlk hfc
      simp [SetConfig, hid, hr, hlk, hfc]

/-- C6 (witness): a registered device accepts a matching document (the
store now holds it) and a mismatched document is rejected with the state
untouched. -/
def c6D : DM :=
  { cacheTimeout := 1, lastUpdate := 0, onboardCerts := [], deviceCerts := [],
    devices := [("22222222-2222-4222-8222-222222222222", {})] }

theorem c6_witness :
    SetConfig 0 {} {} c6D "22222222-2222-4222-8222-222222222222"
        (some { id := some "22222222-2222-4222-8222-222222222222", body := "cfg" }) =
      ({ deviceConfigsH := [("22222222-2222-4222-8222-222222222222",
          some { id := some "22222222-2222-4222-8222-222222222222", body := "cfg" })] },
        c6D, .ok ()) ∧
    SetConfig 0 {} {} c6D "33333333-3333-4333-8333-333333333333"
        (some { id := some "22222222-2222-4222-8222-222222222222", body := "cfg" }) =
      ({}, c6D, .err .mismatchedIdentity) := by
  constructor
  · have h := ((c6_set_config_correct 0 {} {} c6D "22222222-2222-4222-8222-222222222222"
      (some { id := some "22222222-2222-4222-8222-222222222222", body := "cfg" })).2.2
      { id := some "22222222-2222-4222-8222-222222222222", body := "cfg" } c6D rfl rfl
      (by decide)).2 {} (by decide) rfl
    exact h
  · exact (c6_set_config_correct 0 {} {} c6D "33333333-3333-4333-8333-333333333333"
      (some { id := some "22222222-2222-4222-8222-222222222222", body := "cfg" })).2.1
      { id := some "22222222-2222-4222-8222-222222222222", body := "cfg" } rfl (by decide)

/-! ### Claim C7 -/

/-- C7: GetConfig on a device with no stored config creates, persists and
returns the base document with the self-referential UUID field set; a
second GetConfig returns the same document without writing again; and on a
device with a stored (decodable) config it returns the stored document
with the store unchanged. -/
theorem c7_get_config_correct (f : Faults) (db : DB) (u : String)
    (hf1 : u ∉ f.failConfigGet) (hf2 : f.failConfigSet = false) :
    (alookup db.deviceConfigsH u = none →
      GetConfig f db u =
        ({ db with deviceConfigsH := ainsert db.deviceConfigsH u (some (createBaseConfig u)) },
          .ok (createBaseConfig u)) ∧
      (createBaseConfig u).id = some u ∧
      GetConfig f
          { db with deviceConfigsH := ainsert db.deviceConfigsH u (some (createBaseConfig u)) } u =
        ({ db with deviceConfigsH := ainsert db.deviceConfigsH u (some (createBaseConfig u)) },
          .ok (createBaseConfig u))) ∧
    (∀ c, alookup db.deviceConfigsH u = some (some c) → GetConfig f db u = (db, .ok c)) := by
  constructor
  · intro hlk
    refine ⟨?_, rfl, ?_⟩
    · simp [GetConfig, hf1, hlk, hf2]
    · simp [GetConfig, hf1, alookup_ainsert_self]
  · intro c hlk
    simp [GetConfig, hf1, hlk]

theorem c7_witness :
    GetConfig {} {} "44444444-4444-4444-8444-444444444444" =
      ({ deviceConfigsH := [("44444444-4444-4444-8444-444444444444",
          some { id := some "44444444-4444-4444-8444-444444444444", body := "" })] },
        .ok { id := some "44444444-4444-4444-8444-444444444444", body := "" }) ∧
    GetConfig {}
        { deviceConfigsH := [("44444444-4444-4444-8444-444444444444",
            some { id := some "44444444-4444-4444-8444-444444444444", body := "" })] }
        "44444444-4444-4444-8444-444444444444" =
      ({ deviceConfigsH := [("44444444-4444-4444-8444-444444444444",
          some { id := some "44444444-4444-4444-8444-444444444444", body := "" })] },
        .ok { id := some "44444444-4444-4444-8444-444444444444", body := "" }) := by
  have h := (c7_get_config_correct {} {} "44444444-4444-4444-8444-444444444444"
    (by decide) rfl).1 (by decide)
  exact ⟨h.1, h.2.2⟩

/-! ### Claim C8 -/

/-- C8: with the device certificate readable and decodable and likewise
the onboarding certificate, a failed serial read (injected fault or absent
record) yields the two certificates with an empty serial and no error;
whereas an unreadable or undecodable device certificate, or onboarding
certificate, makes DeviceGet return an error with no partial result. -/
theorem c8_device_get_correct (f : Faults) (db : DB) (u : String) (dc oc : Cert) :
    (alookup db.deviceCertsH u = some (.goodCert dc) →
      alookup db.deviceOnboardCertsH u = some (.goodCert oc) →
      (u ∈ f.failDeviceSerialGet ∨ alookup db.deviceSerialsH u = none) →
      DeviceGet f db (some u) = .ok (dc, oc, "")) ∧
    ((alookup db.deviceCertsH u = none ∨
        alookup db.deviceCertsH u = some .badDer ∨
        alookup db.deviceCertsH u = some .noPem) →
      ∃ e, DeviceGet f db (some u) = .err e) ∧
    (alookup db.deviceCertsH u = some (.goodCert dc) →
      (alookup db.deviceOnboardCertsH u = none ∨
        alookup db.deviceOnboardCertsH u = some .badDer ∨
        alookup db.deviceOnboardCertsH u = some .noPem) →
      ∃ e, DeviceGet f db (some u) = .err e) := by
  refine ⟨?_, ?_, ?_⟩
  · intro h1 h2 h3
    rcases h3 with h3 | h3
    · simp [DeviceGet, readCert, h1, h2, axParseCert, h3]
    · by_cases hf : u ∈ f.failDeviceSerialGet
      · simp [DeviceGet, readCert, h1, h2, axParseCert, hf]
      · simp [DeviceGet, readCert, h1, h2, axParseCert, hf, h3]
  · intro h
    rcases h with h | h | h
    · exact ⟨.storeErr, by simp [DeviceGet, readCert, h]⟩
    · exact ⟨.decodeErr, by simp [DeviceGet, readCert, h, axParseCert]⟩
    · exact ⟨.decodeErr, by simp [DeviceGet, readCert, h, axParseCert]⟩
  · intro h1 h
    rcases h with h | h | h
    · exact ⟨.storeErr, by simp [DeviceGet, readCert, h1, h, axParseCert]⟩
    · exact ⟨.decodeErr, by simp [DeviceGet, readCert, h1, h, axParseCert]⟩
    · exact ⟨.decodeErr, by simp [DeviceGet, readCert, h1, h, axParseCert]⟩

theorem c8_witness :
    DeviceGet {}
        { deviceCertsH := [("55555555-5555-4555-8555-555555555555",
            .goodCert { raw := "rawD", cn := "d" })],
          deviceOnboardCertsH := [("55555555-5555-4555-8555-555555555555",
            .goodCert { raw := "rawO", cn := "o" })] }
        (some "55555555-5555-4555-8555-555555555555") =
      .ok ({ raw := "rawD", cn := "d" }, { raw := "rawO", cn := "o" }, "") := by
  exact (c8_device_get_correct {}
    { deviceCertsH := [("55555555-5555-4555-8555-555555555555",
        .goodCert { raw := "rawD", cn := "d" })],
      deviceOnboardCertsH := [("55555555-5555-4555-8555-555555555555",
        .goodCert { raw := "rawO", cn := "o" })] }
    "55555555-5555-4555-8555-555555555555"
    { raw := "rawD", cn := "d" } { raw := "rawO", cn := "o" }).1
    (by decide) (by decide) (Or.inr (by decide))

/-! ### Claim C9 -/

theorem alookup_streamAppend_self (s : List (String × List String)) (n e : String) :
    alookup (streamAppend s n e) n = some ((alookup s n).getD [] ++ [e]) := by
  unfold streamAppend
  cases h : alookup s n with
  | some l => simp [h, alookup_ainsert_self]
  | none => simp [h, alookup_ainsert_self]

/-- C9: WriteLogs, WriteInfo and WriteMetrics reject a nil message; for
any message whose embedded device UUID parses, they append the serialized
payload to the corresponding per-device stream and succeed — with no
hypothesis whatsoever about the device being registered (the operations do
not even consult the cache) — and a subsequent GetLogsReader for that UUID
yields the appended entry as the last element. -/
theorem c9_write_telemetry_correct (f : Faults) (db : DB) (u : String)
    (hx : f.failXAdd = false) :
    (WriteLogs f db none = (db, .err .invalidInput)) ∧
    (∀ m : LogBundle, uuidFromString m.devID = some u →
      WriteLogs f db (some m) =
        ({ db with streams := streamAppend db.streams ("LOGS_EVE_" ++ u) m.payload },
          .ok ()) ∧
      GetLogsReader
          { db with streams := streamAppend db.streams ("LOGS_EVE_" ++ u) m.payload } u =
        GetLogsReader db u ++ [m.payload]) ∧
    (∀ m : ZInfoMsg, uuidFromString m.devId = some u →
      WriteInfo f db (some m) =
        ({ db with streams := streamAppend db.streams ("INFO_EVE_" ++ u) m.payload },
          .ok ())) ∧
    (∀ m : ZMetricMsg, uuidFromString m.devID = some u →
      WriteMetrics f db (some m) =
        ({ db with streams := streamAppend db.streams ("METRICS_EVE_" ++ u) m.payload },
          .ok ())) ∧
    (WriteInfo f db none = (db, .err .invalidInput)) ∧
    (WriteMetrics f db none = (db, .err .invalidInput)) := by
  refine ⟨rfl, ?_, ?_, ?_, rfl, rfl⟩
  · intro m hm
    constructor
    · simp [WriteLogs, hm, writeProtobufToStream, hx]
    · simp [GetLogsReader, alookup_streamAppend_self]
  · intro m hm
    simp [WriteInfo, hm, writeProtobufToStream, hx]
  · intro m hm
    simp [WriteMetrics, hm, writeProtobufToStream, hx]

theorem c9_witness :
    WriteLogs {} {}
        (some { devID := "123e4567-e89b-12d3-a456-426614174000", payload := "hello" }) =
      ({ streams := [("LOGS_EVE_123e4567-e89b-12d3-a456-426614174000", ["hello"])] },
        .ok ()) ∧
    GetLogsReader
        { streams := [("LOGS_EVE_123e4567-e89b-12d3-a456-426614174000", ["hello"])] }
        "123e4567-e89b-12d3-a456-426614174000" = ["hello"] := by
  have h := (c9_write_telemetry_correct {} {} "123e4567-e89b-12d3-a456-426614174000"
    rfl).2.1 { devID := "123e4567-e89b-12d3-a456-426614174000", payload := "hello" }
    (by decide)
  constructor
  · exact h.1
  · simpa using h.2

/-! ### Claim C5 -/

/-- C5 (code bug): a backing store holding one onboarding-certificate
record whose bytes contain no PEM block makes refreshCache dereference
the nil block pointer returned by pem.Decode — the run panics instead of
failing with the typed DecodeError the claim (and §4.1 of the design)
promises.  A record that is a PEM block holding invalid DER does produce
the typed DecodeError, as the second conjunct shows. -/
theorem c5_bug_eval :
    (refreshCache 0 {} { onboardCertsH := [("cn1", .noPem)] }
        { cacheTimeout := 0, lastUpdate := 0, onboardCerts := [],
          deviceCerts := [], devices := [] }).2 = .panicked ∧
    (refreshCache 0 {} { onboardCertsH := [("cn1", .badDer)] }
        { cacheTimeout := 0, lastUpdate := 0, onboardCerts := [],
          deviceCerts := [], devices := [] }).2 = .err .decodeErr := by
  constructor
  · decide
  · decide

/-! ### Claim C3 -/

/-- C3: if the certificate identity is already mapped in the deviceCerts
cache, DeviceRegister fails with AlreadyRegisteredError and neither the
store nor the cache changes; if it is not mapped and every persistence
step succeeds, DeviceRegister returns the minted UUID and writes the new
device through into both cache maps without a refresh (lastUpdate is
untouched); and a subsequent OnboardCheck against the post-registration
cache with the same (onboarding certificate, serial) pair — provided the
pre-existing cached devices all carry non-nil onboarding certificates, cf.
C10 — fails with SerialAlreadyUsedError, i.e. sees the new device. -/
theorem c3_device_register_correct (now now2 : Int) (f f2 : Faults) (db db2 : DB)
    (d : DM) (C O : Cert) (S unew : String)
    (hTTL : now - d.lastUpdate < d.cacheTimeout) :
    ((∃ u0, alookup d.deviceCerts C.raw = some u0) →
      ∀ onboard? : Option Cert,
        DeviceRegister now f db d (some C) onboard? S unew =
          (db, d, .err .alreadyRegistered)) ∧
    (alookup d.deviceCerts C.raw = none →
      f.failWriteCert = false → f.failSerialSet = false →
      f.failConfigSet = false → f.failXAdd = false →
      ∃ db5,
        DeviceRegister now f db d (some C) (some O) S unew =
          (db5,
            { d with
                deviceCerts := ainsert d.deviceCerts C.raw unew,
                devices := ainsert d.devices unew { onboard := some O, serial := S } },
            .ok unew)) ∧
    (now2 - d.lastUpdate < d.cacheTimeout →
      (∀ p ∈ d.devices, p.2.onboard ≠ none) →
      onboardSerialOk d O S = true →
      OnboardCheck now2 f2 db2
          { d with
              deviceCerts := ainsert d.deviceCerts C.raw unew,
              devices := ainsert d.devices unew { onboard := some O, serial := S } }
          (some O) S =
        ({ d with
            deviceCerts := ainsert d.deviceCerts C.raw unew,
            devices := ainsert d.devices unew { onboard := some O, serial := S } },
          .err .usedSerial)) := by
  have hrf := refreshCache_noop now f db d hTTL
  refine ⟨?_, ?_, ?_⟩
  · rintro ⟨u0, hu0⟩ onboard?
    simp [DeviceRegister, hrf, hu0]
  · intro halk hw hs hc hx
    simp only [DeviceRegister, hrf, halk, hw, hs, hc, hx, Bool.and_false,
      Bool.false_eq_true, if_false]
    exact ⟨_, rfl⟩
  · intro hTTL2 hnn hvalid
    have hnn3 : ∀ p ∈ ainsert d.devices unew
        ({ onboard := some O, serial := S } : DeviceStorage), p.2.onboard ≠ none := by
      intro p hp
      rcases mem_ainsert hp with hp2 | hp2
      · exact hnn p hp2
      · rw [hp2]
        simp
    have hmatch : ∃ p ∈ ainsert d.devices unew
        ({ onboard := some O, serial := S } : DeviceStorage),
        devMatches O.raw S p = true := by
      refine ⟨(unew, { onboard := some O, serial := S }), self_mem_ainsert _ _ _, ?_⟩
      simp [devMatches]
    obtain ⟨uhit, hsc⟩ := scan_some_of_match hnn3 hmatch
    rw [OnboardCheck_eval now2 f2 db2
        { d with
            deviceCerts := ainsert d.deviceCerts C.raw unew,
            devices := ainsert d.devices unew { onboard := some O, serial := S } }
        O S hTTL2,
      checkValid_ok_of_serialOk (d := { d with
        deviceCerts := ainsert d.deviceCerts C.raw unew,
        devices := ainsert d.devices unew { onboard := some O, serial := S } }) hvalid]
    simp [getOnboardSerialDevice, hsc]

/-- C3 (counterexample): in a pre-registration cache state holding a
device record with a nil onboarding certificate, registration of a fresh
certificate fully succeeds, but the subsequent OnboardCheck with the same
(onboarding certificate, serial) pair does not see the new device: the
reuse scan dereferences the nil pointer of the pre-existing entry and the
call panics instead of failing with the serial-already-used error. -/
def c3BadD : DM :=
  { cacheTimeout := 10, lastUpdate := 0,
    onboardCerts := [("rawO8", ["S8"])], deviceCerts := [],
    devices := [("u0", { onboard := none, serial := "zz" })] }

theorem c3_counterexample :
    (DeviceRegister 0 {} {} c3BadD (some { raw := "rawC8", cn := "c" })
        (some { raw := "rawO8", cn := "o" }) "S8"
        "88888888-8888-4888-8888-888888888888").2.2 =
      .ok "88888888-8888-4888-8888-888888888888" ∧
    OnboardCheck 0 {} {}
        (DeviceRegister 0 {} {} c3BadD (some { raw := "rawC8", cn := "c" })
          (some { raw := "rawO8", cn := "o" }) "S8"
          "88888888-8888-4888-8888-888888888888").2.1
        (some { raw := "rawO8", cn := "o" }) "S8" =
      ((DeviceRegister 0 {} {} c3BadD (some { raw := "rawC8", cn := "c" })
          (some { raw := "rawO8", cn := "o" }) "S8"
          "88888888-8888-4888-8888-888888888888").2.1, .panicked) := by
  constructor
  · decide
  · decide

/-- C3 (witness): registering a fresh certificate against an empty cache
succeeds and writes the device through; OnboardCheck with the sponsor
certificate and the same serial then reports the serial as used. -/
def c3D : DM :=
  { cacheTimeout := 10, lastUpdate := 0,
    onboardCerts := [("rawO", ["S9"])], deviceCerts := [], devices := [] }

theorem c3_witness :
    (∃ db5,
      DeviceRegister 0 {} {} c3D (some { raw := "rawC", cn := "c" })
          (some { raw := "rawO", cn := "o" }) "S9"
          "66666666-6666-4666-8666-666666666666" =
        (db5,
          { c3D with
              deviceCerts := ainsert c3D.deviceCerts "rawC"
                "66666666-6666-4666-8666-666666666666",
              devices := ainsert c3D.devices "66666666-6666-4666-8666-666666666666"
                { onboard := some { raw := "rawO", cn := "o" }, serial := "S9" } },
          .ok "66666666-6666-4666-8666-666666666666")) ∧
    OnboardCheck 0 {} {}
        { c3D with
            deviceCerts := ainsert c3D.deviceCerts "rawC"
              "66666666-6666-4666-8666-666666666666",
            devices := ainsert c3D.devices "66666666-6666-4666-8666-666666666666"
              { onboard := some { raw := "rawO", cn := "o" }, serial := "S9" } }
        (some { raw := "rawO", cn := "o" }) "S9" =
      ({ c3D with
          deviceCerts := ainsert c3D.deviceCerts "rawC"
            "66666666-6666-4666-8666-666666666666",
          devices := ainsert c3D.devices "66666666-6666-4666-8666-666666666666"
            { onboard := some { raw := "rawO", cn := "o" }, serial := "S9" } },
        .err .usedSerial) := by
  have h := c3_device_register_correct 0 0 {} {} {} {} c3D
    { raw := "rawC", cn := "c" } { raw := "rawO", cn := "o" } "S9"
    "66666666-6666-4666-8666-666666666666" (by decide)
  exact ⟨h.2.1 (by decide) rfl rfl rfl rfl, h.2.2 (by decide) (by decide) (by decide)⟩

/-! ### Claim C4 -/

theorem alookup_mem {α : Type} {l : List (String × α)} {k : String} {v : α}
    (h : alookup l k = some v) : (k, v) ∈ l := by
  induction l with
  | nil => cases h
  | cons p rest ih =>
    rcases p with ⟨k1, v1⟩
    by_cases hp : k1 = k
    · simp only [alookup, if_pos hp] at h
      injection h with h2
      subst hp
      subst h2
      exact List.mem_cons_self _ _
    · simp only [alookup, if_neg hp] at h
      exact List.mem_cons_of_mem _ (ih h)

theorem alookup_none_no_key {α : Type} {l : List (String × α)} {k : String}
    (h : alookup l k = none) : ∀ p ∈ l, p.1 ≠ k := by
  induction l with
  | nil => intro p hp; cases hp
  | cons q rest ih =>
    rcases q with ⟨k1, v1⟩
    by_cases hp : k1 = k
    · simp [alookup, hp] at h
    · simp only [alookup, if_neg hp] at h
      intro p hp2
      rcases List.mem_cons.mp hp2 with hp3 | hp3
      · rw [hp3]; exact hp
      · exact ih h p hp3

/-- The database part of the multi-key drop, independent of the
accumulated error result. -/
def dropAll (db : DB) : List (List String) → DB
  | [] => db
  | [k0] :: rest => dropAll (del db k0).1 rest
  | [k0, k1] :: rest => dropAll (hdel db k0 k1).1 rest
  | ([] : List String) :: _ => db
  | (_ :: _ :: _ :: _) :: _ => db

theorem transactionDropGo_fst (ks : List (List String)) :
    ∀ (db : DB) (res : GoResult Unit),
      (transactionDropGo db res ks).1 = dropAll db ks := by
  induction ks with
  | nil => intro db res; rfl
  | cons k rest ih =>
    intro db res
    match k with
    | [] => rfl
    | [k0] =>
      simp only [transactionDropGo, dropAll]
      exact ih _ _
    | [k0, k1] =>
      simp only [transactionDropGo, dropAll]
      exact ih _ _
    | k0 :: k1 :: k2 :: ks2 => rfl

/-- The seven-key drop of `DeviceRemove` removes exactly the device's four
hash fields and three streams, whatever the per-key counts were. -/
theorem deviceRemove_dropped (db : DB) (u : String) :
    (transactionDrop db
      [["DEVICE_CERTS", u], ["DEVICE_CONFIGS", u], ["DEVICE_ONBOARD_CERTS", u],
        ["DEVICE_SERIALS", u], ["INFO_EVE_" ++ u], ["LOGS_EVE_" ++ u],
        ["METRICS_EVE_" ++ u]]).1 =
      { db with
          deviceCertsH := aremove db.deviceCertsH u,
          deviceConfigsH := aremove db.deviceConfigsH u,
          deviceOnboardCertsH := aremove db.deviceOnboardCertsH u,
          deviceSerialsH := aremove db.deviceSerialsH u,
          streams := aremove (aremove (aremove db.streams ("INFO_EVE_" ++ u))
            ("LOGS_EVE_" ++ u)) ("METRICS_EVE_" ++ u) } := by
  rw [transactionDrop, transactionDropGo_fst]
  rfl

theorem deviceCertScanGo_no_key {k : String} {l : List (String × PemValue)}
    {acc out : List (String × String) × List (String × DeviceStorage)}
    (hl : ∀ p ∈ l, p.1 ≠ k)
    (ha1 : ∀ p ∈ acc.1, p.2 ≠ k)
    (ha2 : ∀ p ∈ acc.2, p.1 ≠ k)
    (h : deviceCertScanGo acc l = .ok out) :
    (∀ p ∈ out.1, p.2 ≠ k) ∧ (∀ p ∈ out.2, p.1 ≠ k) := by
  induction l generalizing acc with
  | nil =>
    simp only [deviceCertScanGo, GoResult.ok.injEq] at h
    exact h ▸ ⟨ha1, ha2⟩
  | cons p rest ih =>
    rcases p with ⟨k1, pv1⟩
    cases hu : uuidFromString k1 with
    | none => simp [deviceCertScanGo, hu] at h
    | some u1 =>
      have hu1 : u1 ≠ k := by
        rw [uuidFromString_eq hu]
        exact hl (k1, pv1) (List.mem_cons_self _ _)
      cases pv1 with
      | noPem => simp [deviceCertScanGo, hu] at h
      | badDer => simp [deviceCertScanGo, hu] at h
      | goodCert c1 =>
        simp only [deviceCertScanGo, hu] at h
        refine ih (fun q hq => hl q (List.mem_cons_of_mem _ hq)) ?_ ?_ h
        · intro q hq
          rcases mem_ainsert hq with hq2 | hq2
          · exact ha1 q hq2
          · rw [hq2]; exact hu1
        · intro q hq
          rcases mem_ainsert hq with hq2 | hq2
          · exact ha2 q hq2
          · rw [hq2]; exact hu1

theorem deviceOnboardScanGo_no_key {k : String} {l : List (String × PemValue)}
    {devs out : List (String × DeviceStorage)}
    (hl : ∀ p ∈ l, p.1 ≠ k) (hd : ∀ p ∈ devs, p.1 ≠ k)
    (h : deviceOnboardScanGo devs l = .ok out) :
    ∀ p ∈ out, p.1 ≠ k := by
  induction l generalizing devs with
  | nil =>
    simp only [deviceOnboardScanGo, GoResult.ok.injEq] at h
    exact h ▸ hd
  | cons p rest ih =>
    rcases p with ⟨k1, pv1⟩
    cases hu : uuidFromString k1 with
    | none => simp [deviceOnboardScanGo, hu] at h
    | some u1 =>
      have hu1 : u1 ≠ k := by
        rw [uuidFromString_eq hu]
        exact hl (k1, pv1) (List.mem_cons_self _ _)
      cases pv1 with
      | noPem => simp [deviceOnboardScanGo, hu] at h
      | badDer => simp [deviceOnboardScanGo, hu] at h
      | goodCert c1 =>
        simp only [deviceOnboardScanGo, hu] at h
        refine ih (fun q hq => hl q (List.mem_cons_of_mem _ hq)) ?_ h
        intro q hq
        rcases mem_ainsert hq with hq2 | hq2
        · exact hd q hq2
        · rw [hq2]; exact hu1

theorem deviceSerialScanGo_no_key {k : String} {l : List (String × String)}
    {devs out : List (String × DeviceStorage)}
    (hl : ∀ p ∈ l, p.1 ≠ k) (hd : ∀ p ∈ devs, p.1 ≠ k)
    (h : deviceSerialScanGo devs l = .ok out) :
    ∀ p ∈ out, p.1 ≠ k := by
  induction l generalizing devs with
  | nil =>
    simp only [deviceSerialScanGo, GoResult.ok.injEq] at h
    exact h ▸ hd
  | cons p rest ih =>
    rcases p with ⟨k1, s1⟩
    cases hu : uuidFromString k1 with
    | none => simp [deviceSerialScanGo, hu] at h
    | some u1 =>
      have hu1 : u1 ≠ k := by
        rw [uuidFromString_eq hu]
        exact hl (k1, s1) (List.mem_cons_self _ _)
      simp only [deviceSerialScanGo, hu] at h
      refine ih (fun q hq => hl q (List.mem_cons_of_mem _ hq)) ?_ h
      intro q hq
      rcases mem_ainsert hq with hq2 | hq2
      · exact hd q hq2
      · rw [hq2]; exact hu1

/-- If the store holds no device-keyed record for `u` in any of the three
device hashes, a refresh that actually ran and succeeded yields a cache in
which `u` is absent from the devices map and no identity maps to `u`. -/
theorem refresh_ran_no_device {now : Int} {f : Faults} {db : DB} {d d1 : DM}
    (u : String)
    (hran : ¬(now - d.lastUpdate < d.cacheTimeout))
    (h1 : ∀ p ∈ db.deviceCertsH, p.1 ≠ u)
    (h2 : ∀ p ∈ db.deviceOnboardCertsH, p.1 ≠ u)
    (h3 : ∀ p ∈ db.deviceSerialsH, p.1 ≠ u)
    (hr : refreshCache now f db d = (d1, .ok ())) :
    alookup d1.devices u = none ∧ ∀ raw, alookup d1.deviceCerts raw ≠ some u := by
  obtain ⟨oc, dcdevs, devs1, devs2, ho, hdc, hdo, hds, hd1⟩ :=
    refreshCache_ran_ok hran hr
  have hscan2 : deviceCertScanGo ([], []) db.deviceCertsH = .ok dcdevs := by
    unfold deviceCertScan at hdc
    by_cases hfc : f.failDeviceCertsAll
    · rw [if_pos hfc] at hdc; simp at hdc
    · rwa [if_neg hfc] at hdc
  have hscan3 : deviceOnboardScanGo dcdevs.2 db.deviceOnboardCertsH = .ok devs1 := by
    unfold deviceOnboardScan at hdo
    by_cases hfo : f.failDeviceOnboardAll
    · rw [if_pos hfo] at hdo; simp at hdo
    · rwa [if_neg hfo] at hdo
  have hscan4 : deviceSerialScanGo devs1 db.deviceSerialsH = .ok devs2 := by
    unfold deviceSerialScan at hds
    by_cases hfs : f.failDeviceSerialsAll
    · rw [if_pos hfs] at hds; simp at hds
    · rwa [if_neg hfs] at hds
  obtain ⟨hA1, hA2⟩ := deviceCertScanGo_no_key h1
    (by intro q hq; cases hq) (by intro q hq; cases hq) hscan2
  have hB := deviceOnboardScanGo_no_key h2 hA2 hscan3
  have hC := deviceSerialScanGo_no_key h3 hB hscan4
  constructor
  · have : d1.devices = devs2 := by rw [hd1]
    rw [this]
    exact alookup_eq_none_of hC
  · intro raw hcon
    have hdc1 : d1.deviceCerts = dcdevs.1 := by rw [hd1]
    rw [hdc1] at hcon
    exact hA1 (raw, u) (alookup_mem hcon) rfl

/-- C4 (counterexample): with the TTL not yet expired, DeviceRemove
succeeds (all seven records dropped) but its internal refreshCache call
is a TTL no-op, so the removed device is still present in the devices
cache after the call returns success — refuting "regardless of how
recently the last refresh occurred". -/
def c4db : DB :=
  { deviceCertsH := [("77777777-7777-4777-8777-777777777777",
      .goodCert { raw := "rawD7", cn := "d7" })],
    deviceOnboardCertsH := [("77777777-7777-4777-8777-777777777777",
      .goodCert { raw := "rawO7", cn := "o7" })],
    deviceSerialsH := [("77777777-7777-4777-8777-777777777777", "S7")],
    deviceConfigsH := [("77777777-7777-4777-8777-777777777777",
      some { id := some "77777777-7777-4777-8777-777777777777", body := "" })],
    streams := [("INFO_EVE_77777777-7777-4777-8777-777777777777", [""]),
      ("LOGS_EVE_77777777-7777-4777-8777-777777777777", [""]),
      ("METRICS_EVE_77777777-7777-4777-8777-777777777777", [""])] }

def c4d : DM :=
  { cacheTimeout := 100, lastUpdate := 0,
    onboardCerts := [],
    deviceCerts := [("rawD7", "77777777-7777-4777-8777-777777777777")],
    devices := [("77777777-7777-4777-8777-777777777777",
      { onboard := some { raw := "rawO7", cn := "o7" }, serial := "S7" })] }

theorem c4_counterexample :
    (DeviceRemove 0 {} c4db c4d "77777777-7777-4777-8777-777777777777").2.2 =
      .ok () ∧
    alookup (DeviceRemove 0 {} c4db c4d
        "77777777-7777-4777-8777-777777777777").2.1.devices
      "77777777-7777-4777-8777-777777777777" =
      some { onboard := some { raw := "rawO7", cn := "o7" }, serial := "S7" } := by
  constructor
  · decide
  · decide

/-- C4 (amended): provided the TTL had expired at the time of the call
(so the internal refresh actually runs — e.g. with cacheTimeout 0), after
DeviceRemove(u) returns success u no longer appears in the devices map or
the deviceCerts map, and a subsequent DeviceList does not include u.
Without that proviso the internal refreshCache call is a TTL no-op and
the stale entries survive. -/
theorem c4_device_remove_correct (now : Int) (f : Faults) (db : DB) (d : DM)
    (u : String) (db1 : DB) (d1 : DM)
    (hran : ¬(now - d.lastUpdate < d.cacheTimeout))
    (h : DeviceRemove now f db d u = (db1, d1, .ok ())) :
    alookup d1.devices u = none ∧
    (∀ raw, alookup d1.deviceCerts raw ≠ some u) ∧
    (∀ now2 d2 l, DeviceList now2 f db1 d1 = (d2, .ok l) → u ∉ l) := by
  unfold DeviceRemove at h
  split at h
  · simp at h
  · simp at h
  · rename_i db1' a heq
    split at h
    · simp at h
    · simp at h
    · rename_i d1' a2 heq2
      simp only [Prod.mk.injEq] at h
      obtain ⟨hdb1, hd1, -⟩ := h
      subst hdb1
      subst hd1
      have hdbeq : db1' =
          { db with
              deviceCertsH := aremove db.deviceCertsH u,
              deviceConfigsH := aremove db.deviceConfigsH u,
              deviceOnboardCertsH := aremove db.deviceOnboardCertsH u,
              deviceSerialsH := aremove db.deviceSerialsH u,
              streams := aremove (aremove (aremove db.streams ("INFO_EVE_" ++ u))
                ("LOGS_EVE_" ++ u)) ("METRICS_EVE_" ++ u) } := by
        have hfst := congrArg Prod.fst heq
        rw [deviceRemove_dropped] at hfst
        exact hfst.symm.trans rfl
      have h1 : ∀ p ∈ db1'.deviceCertsH, p.1 ≠ u := by
        rw [hdbeq]
        intro p hp
        exact (mem_aremove hp).2
      have h2 : ∀ p ∈ db1'.deviceOnboardCertsH, p.1 ≠ u := by
        rw [hdbeq]
        intro p hp
        exact (mem_aremove hp).2
      have h3 : ∀ p ∈ db1'.deviceSerialsH, p.1 ≠ u := by
        rw [hdbeq]
        intro p hp
        exact (mem_aremove hp).2
      obtain ⟨hdev, hcert⟩ := refresh_ran_no_device u hran h1 h2 h3 heq2
      refine ⟨hdev, hcert, ?_⟩
      intro now2 d2 l hdl
      unfold DeviceList at hdl
      split at hdl
      · simp at hdl
      · simp at hdl
      · rename_i d2' a3 heq3
        simp only [Prod.mk.injEq] at hdl
        obtain ⟨-, hl⟩ := hdl
        injection hl with hl2
        subst hl2
        by_cases hTTL2 : now2 - d1'.lastUpdate < d1'.cacheTimeout
        · rw [refreshCache_noop now2 f db1' d1' hTTL2] at heq3
          simp only [Prod.mk.injEq] at heq3
          obtain ⟨hd2, -⟩ := heq3
          subst hd2
          intro hmem
          obtain ⟨p, hp, hp1⟩ := List.mem_map.mp hmem
          exact alookup_none_no_key hdev p hp hp1
        · obtain ⟨hdev2, -⟩ := refresh_ran_no_device u hTTL2 h1 h2 h3 heq3
          intro hmem
          obtain ⟨p, hp, hp1⟩ := List.mem_map.mp hmem
          exact alookup_none_no_key hdev2 p hp hp1

/-- C4 (witness): same store, cacheTimeout 0 — the removal forces the
refresh and the device is gone from the cache. -/
theorem c4_witness :
    alookup (DeviceRemove 0 {} c4db { c4d with cacheTimeout := 0 }
        "77777777-7777-4777-8777-777777777777").2.1.devices
      "77777777-7777-4777-8777-777777777777" = none := by
  have h := c4_device_remove_correct 0 {} c4db { c4d with cacheTimeout := 0 }
    "77777777-7777-4777-8777-777777777777"
    (DeviceRemove 0 {} c4db { c4d with cacheTimeout := 0 }
      "77777777-7777-4777-8777-777777777777").1
    (DeviceRemove 0 {} c4db { c4d with cacheTimeout := 0 }
      "77777777-7777-4777-8777-777777777777").2.1
    (by decide) (by decide)
  exact h.1

end Adam
